import Mathlib

/-!
Shallow embedding of the `logging` Go package (github.com/amarin/logging):
levels, config validation, the locked-writer / writer-registry layer, the
backend lifecycle and the process-wide session, with theorems checking the
specification's claims against this embedding.

Conventions of the embedding:
* Go `Level` is an `int`; we embed it as `Int`.
* Go errors built with `fmt.Errorf("%w: ...", Error)` become strings that
  start with the module marker `"logging"` (since `Error = errors.New("logging")`
  renders as the marker followed by `": ..."`).
* Go maps are embedded as association lists (`List (κ × α)` with `List.lookup`);
  map assignment is an in-place update of the first matching key.
* Pointer identity of registry-held writers is embedded as a `Nat` id
  allocated from a counter.
* Mutex-guarded methods are embedded as single-thread steps returning
  `Option`: `none` means the call blocks forever on `mu.Lock()`.
-/

namespace Logging

/-- internal package name used to mark module errors (constants.go `moduleName`). -/
def moduleName : String := "logging"

/-- Go `type Level int` (level.go). -/
abbrev Level := Int

/-- level.go `LevelTrace Level = 0`. -/
def LevelTrace : Level := 0
/-- level.go `LevelDebug Level = 1`. -/
def LevelDebug : Level := 1
/-- level.go `LevelInfo Level = 2`. -/
def LevelInfo : Level := 2
/-- level.go `LevelWarn Level = 3`. -/
def LevelWarn : Level := 3
/-- level.go `LevelError Level = 4`. -/
def LevelError : Level := 4
/-- level.go `LevelPanic Level = 5`. -/
def LevelPanic : Level := 5
/-- level.go `LevelFatal Level = 6`. -/
def LevelFatal : Level := 6
/-- level.go `DefaultLevel = LevelInfo`. -/
def DefaultLevel : Level := LevelInfo

/-- level.go `String()`: canonical name, or `"level" + itoa(int(l))` for unknown. -/
def levelString (l : Level) : String :=
  if l = LevelTrace then "trace"
  else if l = LevelDebug then "debug"
  else if l = LevelInfo then "info"
  else if l = LevelWarn then "warn"
  else if l = LevelError then "error"
  else if l = LevelPanic then "panic"
  else if l = LevelFatal then "fatal"
  else "level" ++ toString l

/-- Membership of a level in the seven-value switch used by `Config.Validate`
(level.go constants; config `Validate` cases). -/
def levelValid (l : Level) : Prop :=
  l = LevelTrace ∨ l = LevelDebug ∨ l = LevelInfo ∨ l = LevelWarn ∨
    l = LevelError ∨ l = LevelPanic ∨ l = LevelFatal

instance (l : Level) : Decidable (levelValid l) := by
  unfold levelValid; infer_instance

/-- ASCII lowercase of one character (`strings.ToLower` restricted to the
ASCII range, which covers every level token). -/
def asciiLower (c : Char) : Char :=
  if 'A' ≤ c ∧ c ≤ 'Z' then Char.ofNat (c.toNat + 32) else c

/-- Model of `strings.ToLower` over the embedded (ASCII) alphabet. -/
def strToLower (s : String) : String := ⟨s.data.map asciiLower⟩

/-- level.go `UnmarshalText`: lowercase the input, match canonical names and the
short aliases, else fail with an "unrecognized level" module error. -/
def unmarshalText (text : String) : Except String Level :=
  let s := strToLower text
  if s = "trace" ∨ s = "t" ∨ s = "trc" then .ok LevelTrace
  else if s = "debug" ∨ s = "d" ∨ s = "dbg" then .ok LevelDebug
  else if s = "info" ∨ s = "i" ∨ s = "inf" then .ok LevelInfo
  else if s = "warn" ∨ s = "warning" ∨ s = "w" ∨ s = "wrn" then .ok LevelWarn
  else if s = "error" ∨ s = "e" ∨ s = "err" then .ok LevelError
  else if s = "panic" ∨ s = "p" then .ok LevelPanic
  else if s = "fatal" ∨ s = "f" then .ok LevelFatal
  else .error (moduleName ++ ": unrecognized level: \x22" ++ text ++ "\x22")

/-- level.go `MarshalText`: canonical lowercase name for each of the seven
levels, module error for anything else. -/
def marshalText (l : Level) : Except String String :=
  if l = LevelTrace then .ok "trace"
  else if l = LevelDebug then .ok "debug"
  else if l = LevelInfo then .ok "info"
  else if l = LevelWarn then .ok "warn"
  else if l = LevelError then .ok "error"
  else if l = LevelPanic then .ok "panic"
  else if l = LevelFatal then .ok "fatal"
  else .error (moduleName ++ ": unknown level value " ++ levelString l)

/-- The switch of `UnmarshalText` over an already-lowercased token: the level
it selects, or `none` for the default (error) branch. -/
def parseToken (s : String) : Option Level :=
  if s = "trace" ∨ s = "t" ∨ s = "trc" then some LevelTrace
  else if s = "debug" ∨ s = "d" ∨ s = "dbg" then some LevelDebug
  else if s = "info" ∨ s = "i" ∨ s = "inf" then some LevelInfo
  else if s = "warn" ∨ s = "warning" ∨ s = "w" ∨ s = "wrn" then some LevelWarn
  else if s = "error" ∨ s = "e" ∨ s = "err" then some LevelError
  else if s = "panic" ∨ s = "p" then some LevelPanic
  else if s = "fatal" ∨ s = "f" then some LevelFatal
  else none

/-- The full set of tokens accepted by `UnmarshalText` after lowercasing:
canonical names plus the documented short aliases. -/
def acceptedLevelTokens : List String :=
  ["trace", "t", "trc", "debug", "d", "dbg", "info", "i", "inf",
   "warn", "warning", "w", "wrn", "error", "e", "err", "panic", "p", "fatal", "f"]

/-- The documented alias/canonical table: lowercased token to canonical level. -/
def levelTokenTable : List (String × Level) :=
  [("trace", LevelTrace), ("t", LevelTrace), ("trc", LevelTrace),
   ("debug", LevelDebug), ("d", LevelDebug), ("dbg", LevelDebug),
   ("info", LevelInfo), ("i", LevelInfo), ("inf", LevelInfo),
   ("warn", LevelWarn), ("warning", LevelWarn), ("w", LevelWarn), ("wrn", LevelWarn),
   ("error", LevelError), ("e", LevelError), ("err", LevelError),
   ("panic", LevelPanic), ("p", LevelPanic),
   ("fatal", LevelFatal), ("f", LevelFatal)]

/-! ### Format, Target, Config (constants.go, level.go Config part) -/

/-- Go `type Format string`. -/
abbrev Format := String

/-- constants.go `FormatText Format = "text"`. -/
def FormatText : Format := "text"
/-- constants.go `FormatJSON Format = "json"`. -/
def FormatJSON : Format := "json"
/-- constants.go `DefaultFormat = FormatText`. -/
def DefaultFormat : Format := FormatText

/-- Go `type Target string`. -/
abbrev Target := String

/-- Go `StdOut Target = "stdout"`. -/
def StdOut : Target := "stdout"
/-- Go `StdErr Target = "stderr"`. -/
def StdErr : Target := "stderr"
/-- Go `SysLog Target = "syslog"`. -/
def SysLog : Target := "syslog"
/-- Go `DefaultOutput = StdOut`. -/
def DefaultOutput : Target := StdOut

/-- The "unexpected format" module error (constants.go `Format.Validate`). -/
def msgUnknownFormat (f : Format) : String :=
  moduleName ++ ": unexpected format `" ++ f ++ "`, want `text` or `json"

/-- constants.go `Format.Validate`: `text` and `json` pass, anything else is a
module error naming the allowed set. -/
def formatValidate (f : Format) : Option String :=
  if f = FormatText then none
  else if f = FormatJSON then none
  else some (msgUnknownFormat f)

/-- Logging field key (`type Key string` in the Go package). -/
abbrev Key := String

/-- The value a context extractor may yield; Go uses `any`, the embedding fixes
an arbitrary concrete value domain so everything stays executable. -/
abbrev Val := String

/-- Go `context.Context` embedded as the chain of key/value pairs installed by
`context.WithValue`. -/
abbrev Ctx := List (String × Val)

/-- context.go `ContextExtractorFunc`: a function from a context to a key and a
possibly-absent (`nil`) value. -/
def ContextExtractorFun := Ctx → Key × Option Val

/-- Go `Config` (level.go): level, format, output, per-name custom levels and the
registered context extractors. Go maps are association lists here. -/
structure Config where
  level : Level
  format : Format
  output : Target
  customLevels : List (String × Level)
  contextExtractors : List (Key × ContextExtractorFun)

/-- Go `NewConfig`: defaults Level=Info, Output=stdout, Format=text, empty maps. -/
def NewConfig : Config :=
  { level := DefaultLevel
    output := DefaultOutput
    format := DefaultFormat
    customLevels := []
    contextExtractors := [] }

/-- The "output empty" module error of `Config.Validate`. -/
def msgOutputEmpty : String :=
  moduleName ++ ": output empty, expected '" ++ StdOut ++ "', '" ++ SysLog
    ++ "' or absolute file path"

/-- The "unknown level" module error of `Config.Validate`. -/
def msgUnknownLevel (l : Level) : String :=
  moduleName ++ ": unknown level: `" ++ levelString l ++ "`"

/-- The "unknown level" module error for a custom-levels entry. -/
def msgUnknownCustomLevel (k : String) (l : Level) : String :=
  moduleName ++ ": unknown level " ++ k ++ ": `" ++ levelString l ++ "`"

/-- level.go `Config.Validate`: output non-empty, then format, then level,
then each custom-levels value, stopping at the first failure. The map loop in
Go is embedded as the first offending entry in list order. -/
def Config.validate (config : Config) : Option String :=
  if config.output = "" then
    some msgOutputEmpty
  else
    match formatValidate config.format with
    | some e => some e
    | none =>
      if ¬ levelValid config.level then
        some (msgUnknownLevel config.level)
      else
        match config.customLevels.find? (fun kv => ¬ levelValid kv.2) with
        | some kv => some (msgUnknownCustomLevel kv.1 kv.2)
        | none => none

/-- level.go `Config.levelForNamed`: the Go `customLevel, ok := m[name]`
read (zero value `0` when absent) followed by the source's switch. -/
def Config.levelForNamed (config : Config) (name : String) (levels : List Level) : Level :=
  let found := config.customLevels.lookup name
  let customLevel : Level := found.getD 0
  if found.isNone ∧ levels.length = 0 then config.level
  else if found.isNone then levels.headD 0
  else customLevel

/-- Go `type Option func(*Config)`; named `ConfigOption` because `Option` is
taken by Lean's core type. -/
def ConfigOption := Config → Config

/-- Go `Config.Apply(opts...)`: run each option over the config in order. -/
def Config.applyOptions (config : Config) (opts : List ConfigOption) : Config :=
  opts.foldl (fun c o => o c) config

/-- level.go `WithLevel`. -/
def WithLevel (level : Level) : ConfigOption := fun c => { c with level := level }

/-- constants.go `WithFormat`. -/
def WithFormat (format : Format) : ConfigOption := fun c => { c with format := format }

/-- level.go target part `WithTarget`. -/
def WithTarget (target : Target) : ConfigOption := fun c => { c with output := target }

/-! ### Context key extraction (context.go) -/

/-- Go `Keys` is `map[Key]any`; embedded as an association list with map
assignment semantics. -/
abbrev Keys := List (Key × Val)

/-- Map assignment `m[k] = v`: replace the entry for `k` if present, append
otherwise. -/
def keysSet (m : Keys) (k : Key) (v : Val) : Keys :=
  match m with
  | [] => [(k, v)]
  | (k', v') :: rest => if k' = k then (k, v) :: rest else (k', v') :: keysSet rest k v

/-- context.go `Config.contextKeys`: run every registered extractor over the
context; keep `res[k] = v` only when the extracted value is non-nil. -/
def Config.contextKeys (config : Config) (ctx : Ctx) : Keys :=
  config.contextExtractors.foldl
    (fun res e =>
      match e.2 ctx with
      | (k, some v) => keysSet res k v
      | (_, none) => res)
    []

/-- One step of the `contextKeys` loop over a single registered extractor. -/
def extractStep (ctx : Ctx) (res : Keys) (e : Key × ContextExtractorFun) : Keys :=
  match e.2 ctx with
  | (k, some v) => keysSet res k v
  | (_, none) => res

/-- backend.go's "already configured" module error. -/
def msgAlreadyConfigured : String := moduleName ++ ": already configured"

/-! ### LockedWriter (writer.go)

A `LockedWriter` holds a `WriteSyncer` stream (set to `nil` by `Close`) and a
mutex. The embedding tracks the stream (`none` = closed) and whether the mutex
is held. Each method is a single-thread step; a result of `none` means the call
blocks forever on `mu.Lock()` because the lock is held and nothing will release
it. The underlying stream is a byte buffer whose `Write` appends and succeeds. -/

/-- writer.go `ErrClosed = fmt.Errorf("%w: stream closed", Error)`. -/
def ErrClosed : String := moduleName ++ ": stream closed"

/-- The wrapped `WriteSyncer` stream: a buffer of written bytes. -/
structure StreamDat where
  buf : List Nat := []
  deriving Repr, DecidableEq

/-- writer.go `LockedWriter`: the stream (`none` once closed) and its mutex. -/
structure LockedWriter where
  stream : Option StreamDat
  locked : Bool
  deriving Repr, DecidableEq

/-- writer.go `LockedWriter.Write`, line for line:
`s.mu.Lock()`; if the stream is nil return `(0, ErrClosed)` — note the source
returns on this path WITHOUT calling `s.mu.Unlock()` — otherwise write to the
stream, `s.mu.Unlock()`, and return `(n, err)`. `none` = the call blocks on the
already-held mutex. -/
def LockedWriter.write (s : LockedWriter) (p : List Nat) :
    Option ((Nat × Option String) × LockedWriter) :=
  if s.locked then none
  else
    let s := { s with locked := true }
    match s.stream with
    | none => some ((0, some ErrClosed), s)
    | some st =>
      some ((p.length, none), { stream := some { buf := st.buf ++ p }, locked := false })

/-- writer.go `LockedWriter.Close`: `s.mu.Lock(); defer s.mu.Unlock()`; nil
stream returns no error; otherwise close the underlying closer (our buffer
closes without error) and set the stream to nil. -/
def LockedWriter.close (s : LockedWriter) : Option (Option String × LockedWriter) :=
  if s.locked then none
  else
    match s.stream with
    | none => some (none, { s with locked := false })
    | some _ => some (none, { stream := none, locked := false })

/-! ### WritersRegistry (writer.go)

Registry values are `*LockedWriter` pointers in Go; the embedding stands a
`Nat` id for each pointer identity, allocated from `nextId`. Construction of a
fresh sink can fail for `syslog` (dial) and file paths (`os.Create`); the
`SinkEnv` oracle says which such constructions succeed. `stdout`/`stderr` wrap
the process streams and never fail. -/

/-- Whether opening/dialing the sink for a given non-std output succeeds. -/
def SinkEnv := String → Bool

/-- writer.go `WritersRegistry`: name-to-writer map plus the id allocator. -/
structure WritersRegistry where
  writers : List (String × Nat)
  nextId : Nat

/-- writer.go `newWritersRegistry`. -/
def newWritersRegistry : WritersRegistry := { writers := [], nextId := 0 }

/-- writer.go `WritersRegistry.registeredOutput`: return the existing entry for
`output` unchanged if present; otherwise construct the sink (std streams always
succeed; syslog dial and file create succeed when `env` says so), register it
under `output` and return it. On failure nothing is registered. -/
def WritersRegistry.registeredOutput (env : SinkEnv) (registry : WritersRegistry)
    (output : String) : Except String (Nat × WritersRegistry) :=
  match registry.writers.lookup output with
  | some writer => .ok (writer, registry)
  | none =>
    let fresh := registry.nextId
    let register : WritersRegistry :=
      { writers := registry.writers ++ [(output, fresh)], nextId := fresh + 1 }
    if output = StdOut ∨ output = StdErr then .ok (fresh, register)
    else if output = SysLog then
      if env output then .ok (fresh, register)
      else .error (moduleName ++ ": set syslog output: dial failed")
    else
      if env output then .ok (fresh, register)
      else .error ("create " ++ output ++ ": failed")

/-! ### Backend (backend.go)

A `Backend` owns a zap core (`_core`, `nil` until `Init` succeeds) and the
config it was built from. The zap core handle is embedded as the id of the
registry writer it was built over; the rest of the core (encoder, zap options)
is a pure function of the stored config. Methods thread the writers registry
and the sink oracle explicitly where Go uses the package-level `writers`. -/

/-- backend.go `Backend`: `_core` (none = unconfigured) and `_config`. -/
structure Backend where
  core : Option Nat
  config : Config

/-- The Go zero value `new(Backend)`: nil core, zero-valued config. -/
def zeroBackend : Backend :=
  { core := none
    config := { level := 0, format := "", output := "", customLevels := [],
                contextExtractors := [] } }

/-- backend.go `Backend.Init`: fail (state untouched) if `_core` is already
set; otherwise build the encoder (fails for an unknown format unless output is
syslog, which uses the syslog encoder), resolve the output writer through the
registry, and only then store the core and the config. -/
def Backend.init (env : SinkEnv) (reg : WritersRegistry) (backend : Backend)
    (config : Config) : Option String × Backend × WritersRegistry :=
  match backend.core with
  | some _ => (some (moduleName ++ ": already configured"), backend, reg)
  | none =>
    if ¬ (config.output = SysLog ∨ config.format = FormatText ∨ config.format = FormatJSON) then
      (some (moduleName ++ ": unknown format: " ++ config.format), backend, reg)
    else
      match WritersRegistry.registeredOutput env reg config.output with
      | .error e => (some e, backend, reg)
      | .ok (w, reg') => (none, { core := some w, config := config }, reg')

/-- backend.go's `zapLogger`: the wrapped sugared logger with its own level,
optional name and accumulated structured fields. -/
structure ZapLogger where
  level : Level
  name : Option String := none
  keys : Keys := []

/-- Go `zapLogger.Level()`. -/
def ZapLogger.getLevel (logger : ZapLogger) : Level := logger.level

/-- Go `zapLogger.WithKeys(fields)`: a copy of the logger with the fields merged
in (zap `With` semantics, later assignment wins per key). -/
def ZapLogger.withKeys (logger : ZapLogger) (fields : Keys) : ZapLogger :=
  { logger with keys := fields.foldl (fun m kv => keysSet m kv.1 kv.2) logger.keys }

/-- backend.go `newLoggerForLevels`: auto-init with the default config when the
core is still nil (`MustInit(*NewConfig())`, which cannot fail there: stdout
always resolves and the text format is valid), then level = first of `levels`
or `DefaultLevel`. -/
def Backend.newLoggerForLevels (env : SinkEnv) (reg : WritersRegistry)
    (backend : Backend) (levels : List Level) :
    ZapLogger × Backend × WritersRegistry :=
  let (backend, reg) :=
    match backend.core with
    | none =>
      match Backend.init env reg backend NewConfig with
      | (_, b, r) => (b, r)
    | some _ => (backend, reg)
  let level :=
    match levels with
    | [] => DefaultLevel
    | l :: _ => l
  ({ level := level }, backend, reg)

/-- backend.go `Backend.NewLogger`. -/
def Backend.newLogger (env : SinkEnv) (reg : WritersRegistry) (backend : Backend)
    (levels : List Level) : ZapLogger × Backend × WritersRegistry :=
  Backend.newLoggerForLevels env reg backend levels

/-- backend.go `Backend.NewLoggerCtx`: same logger as `NewLogger`; the
flush-on-done goroutine has no effect on the returned value. -/
def Backend.newLoggerCtx (env : SinkEnv) (reg : WritersRegistry) (backend : Backend)
    (_ctx : Ctx) (levels : List Level) : ZapLogger × Backend × WritersRegistry :=
  Backend.newLoggerForLevels env reg backend levels

/-- backend.go `Backend.NewNamedLogger`: append the config's custom level for
`name` (if any) to the END of `levels` — "custom is not overlaps argument if
provided, but can be first" — then build and name the logger. -/
def Backend.newNamedLogger (env : SinkEnv) (reg : WritersRegistry) (backend : Backend)
    (name : String) (levels : List Level) : ZapLogger × Backend × WritersRegistry :=
  let levels :=
    match backend.config.customLevels.lookup name with
    | some custom => levels ++ [custom]
    | none => levels
  match Backend.newLoggerForLevels env reg backend levels with
  | (logger, b, r) => ({ logger with name := some name }, b, r)

/-- backend.go `Backend.NewNamedLoggerCtx`: delegates to `NewNamedLogger`; the
flush-on-done goroutine has no effect on the returned value. -/
def Backend.newNamedLoggerCtx (env : SinkEnv) (reg : WritersRegistry) (backend : Backend)
    (_ctx : Ctx) (name : String) (levels : List Level) :
    ZapLogger × Backend × WritersRegistry :=
  Backend.newNamedLogger env reg backend name levels

/-! ### Process-wide session (logging.go)

The package globals `usingBackend`, `initDone`, `useConfig` (all guarded by
`mu`) form the session state. Go's `usingBackend` is a pointer to the Backend
object, so a mutation of the Backend by `backend.Init` is visible through the
global; the embedding keeps the Backend by value and updates the global
explicitly at the aliasing point inside `Init`. `Init` is embedded as a
function that also returns its trace: the list of global states visible at the
points where `mu` is not held (before the call, after `setBackend`, after the
final publish). -/

/-- The package-level session state of logging.go. -/
structure GlobalState where
  usingBackend : Option Backend
  initDone : Bool
  useConfig : Config

/-- The state at process start: no backend, not initialized, default config. -/
def initialGlobalState : GlobalState :=
  { usingBackend := none, initDone := false, useConfig := NewConfig }

/-- logging.go `setBackend`: under `mu`, clear `initDone` and install the
backend. -/
def setBackend (g : GlobalState) (newBackend : Backend) : GlobalState :=
  { g with initDone := false, usingBackend := some newBackend }

/-- logging.go `Init(opts...)`, with its observable trace. Steps: build the
config from defaults plus options; validate (error returns leave the globals
untouched); `setBackend(new(Backend))` — published before the backend is
initialized; run `backend.Init(*config)` (its effect on the Backend is visible
through the global pointer); on success, under `mu`, set `initDone` and
`useConfig`. Returns (error, final state, final registry, trace of
lock-released global states). -/
def InitTrace (env : SinkEnv) (opts : List ConfigOption) (g : GlobalState)
    (reg : WritersRegistry) :
    Option String × GlobalState × WritersRegistry × List GlobalState :=
  let config := Config.applyOptions NewConfig opts
  match config.validate with
  | some e => (some e, g, reg, [g])
  | none =>
    let backend := zeroBackend
    let g1 := setBackend g backend
    match Backend.init env reg backend config with
    | (some e, backendE, reg') =>
      let g1e := { g1 with usingBackend := some backendE }
      (some (moduleName ++ ": backend: " ++ e), g1e, reg', [g, g1, g1e])
    | (none, backendOk, reg') =>
      let g1ok := { g1 with usingBackend := some backendOk }
      let g2 := { g1ok with initDone := true, useConfig := config }
      (none, g2, reg', [g, g1, g1ok, g2])

/-- The result of a process-wide factory call: Go panics become `panicked`. -/
inductive FactoryResult (α : Type) where
  | panicked (e : String)
  | ok (v : α)
  deriving Repr

/-- logging.go error for a factory call with no backend set. -/
def errSetBackendFirst : String := moduleName ++ ": set backend first"

/-- logging.go error for a factory call before successful init. -/
def errInitFirst : String := moduleName ++ ": init first"

/-- logging.go `NewLogger`: snapshot backend and initDone under `mu`; panic
"set backend first" when backend is nil, "init first" when not initialized;
else delegate to the backend. -/
def NewLoggerF (env : SinkEnv) (reg : WritersRegistry) (g : GlobalState)
    (levels : List Level) : FactoryResult (ZapLogger × Backend × WritersRegistry) :=
  match g.usingBackend with
  | none => .panicked errSetBackendFirst
  | some backend =>
    if ¬ g.initDone then .panicked errInitFirst
    else .ok (Backend.newLogger env reg backend levels)

/-- logging.go `NewLoggerCtx`: same guards; on success the context keys
extracted by the config are merged onto the logger. -/
def NewLoggerCtxF (env : SinkEnv) (reg : WritersRegistry) (g : GlobalState)
    (ctx : Ctx) (levels : List Level) :
    FactoryResult (ZapLogger × Backend × WritersRegistry) :=
  match g.usingBackend with
  | none => .panicked errSetBackendFirst
  | some backend =>
    if ¬ g.initDone then .panicked errInitFirst
    else
      match Backend.newLoggerCtx env reg backend ctx levels with
      | (logger, b, r) => .ok (logger.withKeys (g.useConfig.contextKeys ctx), b, r)

/-- logging.go `NewNamedLogger`: same guards; on success delegates with the
single level chosen by `Config.levelForNamed`. -/
def NewNamedLoggerF (env : SinkEnv) (reg : WritersRegistry) (g : GlobalState)
    (name : String) (levels : List Level) :
    FactoryResult (ZapLogger × Backend × WritersRegistry) :=
  match g.usingBackend with
  | none => .panicked errSetBackendFirst
  | some backend =>
    if ¬ g.initDone then .panicked errInitFirst
    else .ok (Backend.newNamedLogger env reg backend name
      [g.useConfig.levelForNamed name levels])

/-- logging.go `NewNamedLoggerCtx`: same guards; named delegate plus context
keys merged onto the logger. -/
def NewNamedLoggerCtxF (env : SinkEnv) (reg : WritersRegistry) (g : GlobalState)
    (ctx : Ctx) (name : String) (levels : List Level) :
    FactoryResult (ZapLogger × Backend × WritersRegistry) :=
  match g.usingBackend with
  | none => .panicked errSetBackendFirst
  | some backend =>
    if ¬ g.initDone then .panicked errInitFirst
    else
      match Backend.newNamedLoggerCtx env reg backend ctx name
        [g.useConfig.levelForNamed name levels] with
      | (logger, b, r) => .ok (logger.withKeys (g.useConfig.contextKeys ctx), b, r)

/-! ## Theorems -/

/-- C3: `Config.levelForNamed(name, levels...)` returns `CustomLevels[name]`
whenever that entry is present (even if an explicit level argument is also
supplied); with no custom entry it returns the first element of `levels` if
non-empty, and `Config.Level` otherwise. -/
theorem c3_levelForNamed_precedence (config : Config) (name : String)
    (levels : List Level) :
    Config.levelForNamed config name levels =
      match config.customLevels.lookup name with
      | some custom => custom
      | none =>
        match levels with
        | [] => config.level
        | l :: _ => l := by
  unfold Config.levelForNamed
  cases h : config.customLevels.lookup name <;> cases levels <;> simp [h]

/-- C1: evaluating the source at the failing input. Closing a fresh writer
succeeds; the first `Write` after `Close` returns `ErrClosed` but leaves the
mutex held (the nil-stream branch of `Write` returns without `Unlock`); the
second `Write` after `Close` therefore blocks forever on `mu.Lock()` instead
of returning `ErrClosed` as `Close`'s own documentation promises. -/
theorem c1_second_write_after_close_blocks :
    LockedWriter.close { stream := some {}, locked := false } =
        some (none, { stream := none, locked := false }) ∧
    LockedWriter.write { stream := none, locked := false } [42] =
        some ((0, some ErrClosed), { stream := none, locked := true }) ∧
    LockedWriter.write { stream := none, locked := true } [42] = none :=
  ⟨rfl, rfl, rfl⟩

/-- C9: `Backend.Init` may succeed at most once: once the core is set, every
later `Init` on the same instance returns the "already configured" error and
leaves the stored core, config and the registry unchanged; and `Init` never
clears a set core (no Ready → Unconfigured transition). -/
theorem c9_backend_init_at_most_once (env : SinkEnv) (reg : WritersRegistry)
    (backend : Backend) (config : Config) :
    (∀ c, backend.core = some c →
      Backend.init env reg backend config = (some msgAlreadyConfigured, backend, reg)) ∧
    ((Backend.init env reg backend config).2.1.core = none → backend.core = none) := by
  constructor
  · intro c hc
    unfold Backend.init
    rw [hc]
    rfl
  · intro hres
    by_contra hne
    rcases Option.ne_none_iff_exists'.mp hne with ⟨c, hc⟩
    unfold Backend.init at hres
    rw [hc] at hres
    simp at hres
    rw [hc] at hres
    exact Option.noConfusion hres

/-- C9 witness: a backend whose core is set rejects a second `Init` with the
"already configured" error and is left unchanged. -/
theorem c9_backend_init_at_most_once_witness :
    Backend.init (fun _ => true) newWritersRegistry
        { core := some 0, config := NewConfig } NewConfig =
      (some msgAlreadyConfigured, { core := some 0, config := NewConfig },
        newWritersRegistry) :=
  (c9_backend_init_at_most_once (fun _ => true) newWritersRegistry
    { core := some 0, config := NewConfig } NewConfig).1 0 rfl

/-- C10: at the `Backend` boundary, `NewNamedLogger` with at least one explicit
level argument returns a logger whose level is that first argument, even when a
custom level is registered for the name; the custom level determines the result
only when no level argument is supplied, and with neither the level is
`DefaultLevel`. -/
theorem c10_backend_named_argument_beats_custom (env : SinkEnv)
    (reg : WritersRegistry) (backend : Backend) (name : String) :
    (∀ l rest, (Backend.newNamedLogger env reg backend name (l :: rest)).1.getLevel = l) ∧
    (∀ c, backend.config.customLevels.lookup name = some c →
      (Backend.newNamedLogger env reg backend name []).1.getLevel = c) ∧
    (backend.config.customLevels.lookup name = none →
      (Backend.newNamedLogger env reg backend name []).1.getLevel = DefaultLevel) := by
  refine ⟨?_, ?_, ?_⟩
  · intro l rest
    unfold Backend.newNamedLogger Backend.newLoggerForLevels
    cases h : backend.config.customLevels.lookup name <;>
      cases backend.core <;>
        simp [h, ZapLogger.getLevel, Backend.init]
  · intro c hc
    unfold Backend.newNamedLogger Backend.newLoggerForLevels
    cases backend.core <;> simp [hc, ZapLogger.getLevel, Backend.init]
  · intro hc
    unfold Backend.newNamedLogger Backend.newLoggerForLevels
    cases backend.core <;> simp [hc, ZapLogger.getLevel, Backend.init]

/-- C10 witness: with custom level Warn registered for "svc", an explicit
Trace argument wins; without an argument the custom Warn wins. -/
theorem c10_backend_named_argument_beats_custom_witness :
    (Backend.newNamedLogger (fun _ => true) newWritersRegistry
        { core := some 0,
          config := { NewConfig with customLevels := [("svc", LevelWarn)] } }
        "svc" [LevelTrace]).1.getLevel = LevelTrace ∧
    (Backend.newNamedLogger (fun _ => true) newWritersRegistry
        { core := some 0,
          config := { NewConfig with customLevels := [("svc", LevelWarn)] } }
        "svc" []).1.getLevel = LevelWarn :=
  ⟨(c10_backend_named_argument_beats_custom (fun _ => true) newWritersRegistry
      { core := some 0,
        config := { NewConfig with customLevels := [("svc", LevelWarn)] } }
      "svc").1 LevelTrace [],
   (c10_backend_named_argument_beats_custom (fun _ => true) newWritersRegistry
      { core := some 0,
        config := { NewConfig with customLevels := [("svc", LevelWarn)] } }
      "svc").2.1 LevelWarn rfl⟩

/-- C8: for the seven levels `UnmarshalText ∘ MarshalText` is the identity and
the emitted text is the canonical lowercase long-form name; every documented
alias parses case-insensitively (via the lowercase mapping) to its canonical
level; every string whose lowercase form is outside the canonical-plus-alias
token set fails to parse; and `MarshalText` fails outside the seven levels. -/
theorem c8_level_text_roundtrip (l : Level) (s : String) :
    (levelValid l →
      marshalText l = .ok (levelString l) ∧
      unmarshalText (levelString l) = .ok l ∧
      strToLower (levelString l) = levelString l) ∧
    (∀ a lv, (a, lv) ∈ levelTokenTable → strToLower s = a → unmarshalText s = .ok lv) ∧
    (strToLower s ∉ acceptedLevelTokens → ∃ e, unmarshalText s = .error e) ∧
    (¬ levelValid l → ∃ e, marshalText l = .error e) := by
  have heq : ∀ text : String, unmarshalText text =
      match parseToken (strToLower text) with
      | some lv => .ok lv
      | none => .error (moduleName ++ ": unrecognized level: \x22" ++ text ++ "\x22") := by
    intro text
    unfold unmarshalText parseToken
    simp only []
    split_ifs
    all_goals rfl
  have hmiss : ∀ t : String, t ∉ acceptedLevelTokens → parseToken t = none := by
    intro t ht
    unfold parseToken
    split_ifs with h1 h2 h3 h4 h5 h6 h7
    all_goals try rfl
    all_goals
      (exfalso
       apply ht
       simp only [acceptedLevelTokens, List.mem_cons, List.not_mem_nil, or_false]
       casesm* _ ∨ _ <;> simp_all)
  refine ⟨?_, ?_, ?_, ?_⟩
  · intro hv
    rcases hv with h|h|h|h|h|h|h
    all_goals subst h
    all_goals exact ⟨rfl, rfl, rfl⟩
  · intro a lv hmem hs
    have htab : ∀ p ∈ levelTokenTable, parseToken p.1 = some p.2 := by decide
    rw [heq s, hs, htab (a, lv) hmem]
  · intro hnot
    refine ⟨moduleName ++ ": unrecognized level: \x22" ++ s ++ "\x22", ?_⟩
    rw [heq s, hmiss (strToLower s) hnot]
  · intro hnv
    simp only [levelValid] at hnv
    push_neg at hnv
    obtain ⟨h1, h2, h3, h4, h5, h6, h7⟩ := hnv
    exact ⟨moduleName ++ ": unknown level value " ++ levelString l,
      by simp [marshalText, h1, h2, h3, h4, h5, h6, h7]⟩

/-- C8 witness: the alias "WRN" parses to `LevelWarn`, and `LevelInfo`
marshals to the canonical "info". -/
theorem c8_level_text_roundtrip_witness :
    unmarshalText "WRN" = .ok LevelWarn ∧ marshalText LevelInfo = .ok "info" := by
  constructor
  · exact (c8_level_text_roundtrip LevelWarn "WRN").2.1 "wrn" LevelWarn
      (by simp [levelTokenTable]) rfl
  · exact ((c8_level_text_roundtrip LevelInfo "x").1
      (Or.inr (Or.inr (Or.inl rfl)))).1

/-- Lemma: `Format.Validate` passes exactly on `text` and `json`. -/
theorem formatValidate_eq_none (f : Format) :
    formatValidate f = none ↔ (f = FormatText ∨ f = FormatJSON) := by
  unfold formatValidate
  split_ifs with h1 h2
  · simp [h1]
  · simp [h2]
  · simp [h1, h2]

/-- A failing `Format.Validate` returns exactly the "unexpected format" error. -/
theorem formatValidate_eq_some (f : Format) (e : String)
    (h : formatValidate f = some e) : e = msgUnknownFormat f := by
  unfold formatValidate at h
  split_ifs at h
  all_goals simp_all

/-- C5: `Config.Validate` succeeds exactly when the output is non-empty, the
format is `text` or `json`, the level is one of the seven defined levels and
every custom-levels value is defined; the four checks run in that order,
stopping at the first failure, and each returned error extends the
module-identifying marker and names the failing field. -/
theorem c5_validate_checks_in_order (config : Config) :
    (config.validate = none ↔
      (config.output ≠ "" ∧ (config.format = FormatText ∨ config.format = FormatJSON) ∧
        levelValid config.level ∧ ∀ kv ∈ config.customLevels, levelValid kv.2)) ∧
    (config.output = "" → config.validate = some msgOutputEmpty) ∧
    (config.output ≠ "" → ¬ (config.format = FormatText ∨ config.format = FormatJSON) →
      config.validate = some (msgUnknownFormat config.format)) ∧
    (config.output ≠ "" → (config.format = FormatText ∨ config.format = FormatJSON) →
      ¬ levelValid config.level → config.validate = some (msgUnknownLevel config.level)) ∧
    (config.output ≠ "" → (config.format = FormatText ∨ config.format = FormatJSON) →
      levelValid config.level →
      ∀ kv, config.customLevels.find? (fun kv => ¬ levelValid kv.2) = some kv →
        config.validate = some (msgUnknownCustomLevel kv.1 kv.2)) ∧
    (∀ e, config.validate = some e → ∃ t, e = moduleName ++ t) := by
  refine ⟨?_, ?_, ?_, ?_, ?_, ?_⟩
  · unfold Config.validate
    by_cases ho : config.output = ""
    · simp [ho]
    · rw [if_neg ho]
      cases hf : formatValidate config.format with
      | some e =>
        have hbadf : ¬ (config.format = FormatText ∨ config.format = FormatJSON) := by
          intro hc
          rw [(formatValidate_eq_none config.format).mpr hc] at hf
          exact Option.noConfusion hf
        simp [ho, hbadf]
      | none =>
        have hfok := (formatValidate_eq_none config.format).mp hf
        by_cases hl : levelValid config.level
        · cases hfind : config.customLevels.find? (fun kv => ¬ levelValid kv.2) with
          | some kv =>
            have hmem := List.mem_of_find?_eq_some hfind
            have hbad : ¬ levelValid kv.2 := by simpa using List.find?_some hfind
            constructor
            · intro hc
              simp [hl] at hc
            · rintro ⟨-, -, -, hall⟩
              exact absurd (hall kv hmem) hbad
          | none =>
            have hall := List.find?_eq_none.mp hfind
            constructor
            · intro _
              refine ⟨ho, hfok, hl, ?_⟩
              intro kv hkv
              have := hall kv hkv
              simpa using this
            · intro _
              simp [hl]
        · constructor
          · intro hc
            simp [hl] at hc
          · rintro ⟨-, -, hl', -⟩
            exact absurd hl' hl
  · intro ho
    unfold Config.validate
    simp [ho]
  · intro ho hfbad
    obtain ⟨e, he⟩ : ∃ e, formatValidate config.format = some e := by
      cases hf : formatValidate config.format with
      | some e => exact ⟨e, rfl⟩
      | none => exact absurd ((formatValidate_eq_none config.format).mp hf) hfbad
    have hmsg := formatValidate_eq_some config.format e he
    unfold Config.validate
    rw [if_neg ho, he, hmsg]
  · intro ho hfok hlbad
    unfold Config.validate
    rw [if_neg ho, (formatValidate_eq_none config.format).mpr hfok]
    simp [hlbad]
  · intro ho hfok hl kv hfind
    unfold Config.validate
    rw [if_neg ho, (formatValidate_eq_none config.format).mpr hfok,
      if_neg (not_not_intro hl), hfind]
  · intro e he
    unfold Config.validate at he
    by_cases ho : config.output = ""
    · rw [if_pos ho] at he
      simp only [Option.some.injEq] at he
      refine ⟨": output empty, expected '" ++ StdOut ++ "', '" ++ SysLog
        ++ "' or absolute file path", ?_⟩
      rw [← he]
      simp [msgOutputEmpty, String.append_assoc]
    · rw [if_neg ho] at he
      cases hf : formatValidate config.format with
      | some efmt =>
        rw [hf] at he
        simp only [Option.some.injEq] at he
        rw [← he, formatValidate_eq_some config.format efmt hf]
        exact ⟨": unexpected format `" ++ config.format ++ "`, want `text` or `json",
          by simp [msgUnknownFormat, String.append_assoc]⟩
      | none =>
        rw [hf] at he
        by_cases hl : levelValid config.level
        · rw [if_neg (not_not_intro hl)] at he
          cases hfind : config.customLevels.find? (fun kv => ¬ levelValid kv.2) with
          | some kv =>
            rw [hfind] at he
            simp only [Option.some.injEq] at he
            rw [← he]
            exact ⟨": unknown level " ++ kv.1 ++ ": `" ++ levelString kv.2 ++ "`",
              by simp [msgUnknownCustomLevel, String.append_assoc]⟩
          | none =>
            rw [hfind] at he
            exact Option.noConfusion he
        · rw [if_pos hl] at he
          simp only [Option.some.injEq] at he
          rw [← he]
          exact ⟨": unknown level: `" ++ levelString config.level ++ "`",
            by simp [msgUnknownLevel, String.append_assoc]⟩

/-- C5 witness: the default config validates; a config with empty output fails
with the output error even though its format is also invalid (first check
wins); an invalid format with non-empty output fails with the format error. -/
theorem c5_validate_checks_in_order_witness :
    Config.validate NewConfig = none ∧
    Config.validate { NewConfig with output := "", format := "bogus" } =
      some msgOutputEmpty ∧
    Config.validate { NewConfig with format := "bogus" } =
      some (msgUnknownFormat "bogus") := by
  refine ⟨?_, ?_, ?_⟩
  · exact (c5_validate_checks_in_order NewConfig).1.mpr
      (by refine ⟨by decide, Or.inl rfl, by decide, ?_⟩
          intro kv hkv
          simp [NewConfig] at hkv)
  · exact (c5_validate_checks_in_order
      { NewConfig with output := "", format := "bogus" }).2.1 rfl
  · exact (c5_validate_checks_in_order
      { NewConfig with format := "bogus" }).2.2.1 (by decide) (by decide)

/-- A key absent from the front of an association list is found in the back. -/
theorem lookup_append_of_none {β : Type} (l₁ l₂ : List (String × β)) (k : String)
    (h : l₁.lookup k = none) : (l₁ ++ l₂).lookup k = l₂.lookup k := by
  induction l₁ with
  | nil => rfl
  | cons p t ih =>
    obtain ⟨k', v⟩ := p
    rw [List.lookup_cons] at h
    rw [List.cons_append, List.lookup_cons]
    cases hk : (k == k') with
    | true =>
      rw [hk] at h
      exact Option.noConfusion h
    | false =>
      rw [hk] at h
      exact ih h

/-- A key that an association list does not know has zero entries in it. -/
theorem countP_eq_zero_of_lookup_none {β : Type} (l : List (String × β)) (k : String)
    (h : l.lookup k = none) : l.countP (fun p => p.1 == k) = 0 := by
  induction l with
  | nil => rfl
  | cons p t ih =>
    obtain ⟨k', v⟩ := p
    rw [List.lookup_cons] at h
    cases hk : (k == k') with
    | true =>
      rw [hk] at h
      exact Option.noConfusion h
    | false =>
      rw [hk] at h
      have hne : k' ≠ k := by
        intro hkk
        subst hkk
        simp at hk
      have hb : (k' == k) = false := beq_eq_false_iff_ne.mpr hne
      rw [List.countP_cons, ih h]
      simp [hb]

/-- What a fresh successful registration produces: the new entry is found under
the identifier, a repeated resolution returns it with the registry unchanged,
and the identifier now has exactly one entry. -/
theorem registeredOutput_fresh_spec (env : SinkEnv) (reg : WritersRegistry)
    (output : String) (hl : reg.writers.lookup output = none)
    (w : Nat) (reg' : WritersRegistry) (hw : w = reg.nextId)
    (hr : reg' = { writers := reg.writers ++ [(output, reg.nextId)],
                   nextId := reg.nextId + 1 }) :
    reg'.writers.lookup output = some w ∧
    WritersRegistry.registeredOutput env reg' output = .ok (w, reg') ∧
    reg'.writers.countP (fun p => p.1 == output) = 1 := by
  subst hw hr
  have hlook : (reg.writers ++ [(output, reg.nextId)]).lookup output = some reg.nextId := by
    rw [lookup_append_of_none _ _ _ hl, List.lookup_cons]
    simp
  refine ⟨hlook, ?_, ?_⟩
  · unfold WritersRegistry.registeredOutput
    rw [hlook]
  · rw [List.countP_append, countP_eq_zero_of_lookup_none _ _ hl]
    simp

/-- C4: a successful resolution through the writer registry is idempotent: the
entry it returns is stored under the identifier, resolving the same identifier
again returns the identical writer with the registry unchanged, and a first
successful resolution of an unknown identifier stores exactly one entry. -/
theorem c4_registeredOutput_idempotent (env : SinkEnv) (reg : WritersRegistry)
    (output : String) (w : Nat) (reg' : WritersRegistry)
    (h : WritersRegistry.registeredOutput env reg output = .ok (w, reg')) :
    WritersRegistry.registeredOutput env reg' output = .ok (w, reg') ∧
    reg'.writers.lookup output = some w ∧
    (reg.writers.lookup output = none →
      reg'.writers.countP (fun p => p.1 == output) = 1) := by
  unfold WritersRegistry.registeredOutput at h
  cases hl : reg.writers.lookup output with
  | some w0 =>
    rw [hl] at h
    simp only [Except.ok.injEq, Prod.mk.injEq] at h
    obtain ⟨hw, hr⟩ := h
    subst hw
    subst hr
    refine ⟨?_, hl, ?_⟩
    · unfold WritersRegistry.registeredOutput
      rw [hl]
    · intro hnone
      exact Option.noConfusion hnone
  | none =>
    rw [hl] at h
    simp only at h
    split_ifs at h with h1 h2 h3 h4
    all_goals simp only [Except.ok.injEq, Prod.mk.injEq, reduceCtorEq] at h
    all_goals
      obtain ⟨hw, hr⟩ := h
      obtain ⟨hspec1, hspec2, hspec3⟩ :=
        registeredOutput_fresh_spec env reg output hl w reg' hw.symm hr.symm
      exact ⟨hspec2, hspec1, fun _ => hspec3⟩

/-- C4 witness: resolving "stdout" in the empty registry creates one entry and
a second resolution returns the identical writer with the registry unchanged. -/
theorem c4_registeredOutput_idempotent_witness :
    WritersRegistry.registeredOutput (fun _ => true)
        { writers := [("stdout", 0)], nextId := 1 } "stdout" =
      .ok (0, { writers := [("stdout", 0)], nextId := 1 }) ∧
    List.countP (fun p => p.1 == "stdout") [("stdout", (0 : Nat))] = 1 := by
  have h := c4_registeredOutput_idempotent (fun _ => true) newWritersRegistry "stdout"
    0 { writers := [("stdout", 0)], nextId := 1 } rfl
  exact ⟨h.1, h.2.2 rfl⟩

/-- C6: each of the four process-wide factory functions panics with the
"set backend first" module error when the session holds no backend, and with
the "init first" module error when a backend is set but initialization has not
completed; both errors extend the module marker, and no branch returns a nil
logger. -/
theorem c6_factories_fail_fast (env : SinkEnv) (reg : WritersRegistry)
    (g : GlobalState) (ctx : Ctx) (name : String) (levels : List Level) :
    (g.usingBackend = none →
      NewLoggerF env reg g levels = .panicked errSetBackendFirst ∧
      NewLoggerCtxF env reg g ctx levels = .panicked errSetBackendFirst ∧
      NewNamedLoggerF env reg g name levels = .panicked errSetBackendFirst ∧
      NewNamedLoggerCtxF env reg g ctx name levels = .panicked errSetBackendFirst) ∧
    (g.usingBackend ≠ none → g.initDone = false →
      NewLoggerF env reg g levels = .panicked errInitFirst ∧
      NewLoggerCtxF env reg g ctx levels = .panicked errInitFirst ∧
      NewNamedLoggerF env reg g name levels = .panicked errInitFirst ∧
      NewNamedLoggerCtxF env reg g ctx name levels = .panicked errInitFirst) ∧
    (∃ t, errSetBackendFirst = moduleName ++ t) ∧
    (∃ t, errInitFirst = moduleName ++ t) := by
  refine ⟨?_, ?_, ⟨": set backend first", rfl⟩, ⟨": init first", rfl⟩⟩
  · intro hb
    unfold NewLoggerF NewLoggerCtxF NewNamedLoggerF NewNamedLoggerCtxF
    rw [hb]
    exact ⟨rfl, rfl, rfl, rfl⟩
  · intro hb hi
    rcases Option.ne_none_iff_exists'.mp hb with ⟨b, hbe⟩
    unfold NewLoggerF NewLoggerCtxF NewNamedLoggerF NewNamedLoggerCtxF
    rw [hbe, hi]
    exact ⟨rfl, rfl, rfl, rfl⟩

/-- C6 witness: with no backend set, `NewLogger` panics with "set backend
first"; with a backend set but init not completed, `NewNamedLogger` panics
with "init first". -/
theorem c6_factories_fail_fast_witness :
    NewLoggerF (fun _ => true) newWritersRegistry initialGlobalState [] =
      .panicked errSetBackendFirst ∧
    NewNamedLoggerF (fun _ => true) newWritersRegistry
        (setBackend initialGlobalState zeroBackend) "svc" [] =
      .panicked errInitFirst := by
  constructor
  · exact ((c6_factories_fail_fast (fun _ => true) newWritersRegistry
      initialGlobalState [] "svc" []).1 rfl).1
  · exact ((c6_factories_fail_fast (fun _ => true) newWritersRegistry
      (setBackend initialGlobalState zeroBackend) [] "svc" []).2.1
      (by simp [setBackend]) rfl).2.2.1

/-- Map assignment stores its key. -/
theorem lookup_keysSet (m : Keys) (k : Key) (v : Val) :
    (keysSet m k v).lookup k = some v := by
  induction m with
  | nil => simp [keysSet, List.lookup_cons]
  | cons p t ih =>
    obtain ⟨k', v'⟩ := p
    unfold keysSet
    by_cases hk : k' = k
    · subst hk
      rw [if_pos rfl, List.lookup_cons]
      simp
    · rw [if_neg hk, List.lookup_cons]
      have hb : (k == k') = false := beq_eq_false_iff_ne.mpr (Ne.symm hk)
      rw [hb]
      exact ih

/-- Map assignment leaves every other key alone. -/
theorem lookup_keysSet_ne (m : Keys) (k k' : Key) (v : Val) (h : k' ≠ k) :
    (keysSet m k v).lookup k' = m.lookup k' := by
  induction m with
  | nil => simp [keysSet, List.lookup_cons, beq_eq_false_iff_ne.mpr h]
  | cons p t ih =>
    obtain ⟨k0, v0⟩ := p
    unfold keysSet
    by_cases hk : k0 = k
    · subst hk
      rw [if_pos rfl, List.lookup_cons, List.lookup_cons]
      rw [beq_eq_false_iff_ne.mpr h]
    · rw [if_neg hk, List.lookup_cons, List.lookup_cons]
      cases hkk : (k' == k0) with
      | true => rfl
      | false => exact ih

/-- Here `Config.contextKeys` is rewritten as the fold of `extractStep`. -/
theorem contextKeys_eq_fold (config : Config) (ctx : Ctx) :
    config.contextKeys ctx = config.contextExtractors.foldl (extractStep ctx) [] := rfl

/-- A key registered by none of the extractors is untouched by the fold. -/
theorem extract_fold_not_mem (ctx : Ctx) (l : List (Key × ContextExtractorFun))
    (acc : Keys) (k : Key)
    (hkeys : ∀ p ∈ l, ((p.2 : ContextExtractorFun) ctx).1 = p.1)
    (hk : k ∉ l.map Prod.fst) :
    (l.foldl (extractStep ctx) acc).lookup k = acc.lookup k := by
  induction l generalizing acc with
  | nil => rfl
  | cons p t ih =>
    simp only [List.map_cons, List.mem_cons, not_or] at hk
    obtain ⟨hk1, hk2⟩ := hk
    have hkp := hkeys p (List.mem_cons_self p t)
    rw [List.foldl_cons]
    have hstep : (extractStep ctx acc p).lookup k = acc.lookup k := by
      unfold extractStep
      rcases hpe : (p.2 : ContextExtractorFun) ctx with ⟨k', v'⟩
      rw [hpe] at hkp
      cases v' with
      | none => rfl
      | some v =>
        simp only []
        exact lookup_keysSet_ne acc k' k v (by intro hc; exact hk1 (hc.trans hkp))
    rw [ih (extractStep ctx acc p) (fun q hq => hkeys q (List.mem_cons_of_mem p hq)) hk2]
    exact hstep

/-- What the fold does at the key of a registered extractor: a non-nil
extraction is stored, a nil extraction leaves the accumulator's value. -/
theorem extract_fold_mem (ctx : Ctx) (l : List (Key × ContextExtractorFun))
    (p : Key × ContextExtractorFun)
    (hkeys : ∀ q ∈ l, ((q.2 : ContextExtractorFun) ctx).1 = q.1)
    (hnodup : (l.map Prod.fst).Nodup) (hmem : p ∈ l) :
    ∀ acc : Keys,
      (∀ v, (p.2 : ContextExtractorFun) ctx = (p.1, some v) →
        (l.foldl (extractStep ctx) acc).lookup p.1 = some v) ∧
      ((p.2 : ContextExtractorFun) ctx = (p.1, none) →
        (l.foldl (extractStep ctx) acc).lookup p.1 = acc.lookup p.1) := by
  induction l with
  | nil => exact absurd hmem (List.not_mem_nil p)
  | cons q t ih =>
    intro acc
    simp only [List.map_cons, List.nodup_cons] at hnodup
    obtain ⟨hq1, hnodup'⟩ := hnodup
    rcases List.mem_cons.mp hmem with hpq | hpt
    · subst hpq
      have hpnott : p.1 ∉ t.map Prod.fst := hq1
      have hkeys' : ∀ q ∈ t, ((q.2 : ContextExtractorFun) ctx).1 = q.1 :=
        fun q hq => hkeys q (List.mem_cons_of_mem p hq)
      constructor
      · intro v hv
        rw [List.foldl_cons]
        rw [extract_fold_not_mem ctx t _ p.1 hkeys' hpnott]
        unfold extractStep
        rw [hv]
        exact lookup_keysSet acc p.1 v
      · intro hv
        rw [List.foldl_cons]
        rw [extract_fold_not_mem ctx t _ p.1 hkeys' hpnott]
        unfold extractStep
        rw [hv]
    · have hq := hkeys q (List.mem_cons_self q t)
      have hp1t : p.1 ∈ t.map Prod.fst := List.mem_map_of_mem Prod.fst hpt
      have hqp : q.1 ≠ p.1 := fun hc => hq1 (hc ▸ hp1t)
      have hkeys' : ∀ r ∈ t, ((r.2 : ContextExtractorFun) ctx).1 = r.1 :=
        fun r hr => hkeys r (List.mem_cons_of_mem q hr)
      have hstep : ∀ acc' : Keys, (extractStep ctx acc' q).lookup p.1 = acc'.lookup p.1 := by
        intro acc'
        unfold extractStep
        rcases hqe : (q.2 : ContextExtractorFun) ctx with ⟨k', v'⟩
        rw [hqe] at hq
        cases v' with
        | none => rfl
        | some v =>
          simp only []
          exact lookup_keysSet_ne acc' k' p.1 v
            (by intro hc; exact hqp (hc.trans hq).symm)
      constructor
      · intro v hv
        rw [List.foldl_cons]
        exact ((ih hkeys' hnodup' hpt) (extractStep ctx acc q)).1 v hv
      · intro hv
        rw [List.foldl_cons]
        rw [((ih hkeys' hnodup' hpt) (extractStep ctx acc q)).2 hv]
        exact hstep acc

/-- C7: under the registration discipline of context.go (one extractor per
key, each extractor reporting its own key), `contextKeys(ctx)` contains an
entry for a key exactly when that key's registered extractor returned a
non-nil value for `ctx`; a nil extraction never appears even though the
extractor is registered. -/
theorem c7_contextKeys_omits_nil (config : Config) (ctx : Ctx) (k : Key) (v : Val)
    (hkeys : ∀ p ∈ config.contextExtractors, ((p.2 : ContextExtractorFun) ctx).1 = p.1)
    (hnodup : (config.contextExtractors.map Prod.fst).Nodup) :
    (config.contextKeys ctx).lookup k = some v ↔
      ∃ e : ContextExtractorFun,
        (k, e) ∈ config.contextExtractors ∧ e ctx = (k, some v) := by
  rw [contextKeys_eq_fold]
  constructor
  · intro hlook
    by_cases hmem : k ∈ config.contextExtractors.map Prod.fst
    · obtain ⟨p, hp, hpk⟩ := List.mem_map.mp hmem
      rcases hpe : (p.2 : ContextExtractorFun) ctx with ⟨k', v'⟩
      have hk' : k' = p.1 := by
        have := hkeys p hp
        rw [hpe] at this
        exact this
      cases v' with
      | none =>
        have := (extract_fold_mem ctx config.contextExtractors p hkeys hnodup hp []).2
          (by rw [hpe, hk'])
        rw [hpk] at this
        rw [this] at hlook
        exact Option.noConfusion hlook
      | some v0 =>
        have := (extract_fold_mem ctx config.contextExtractors p hkeys hnodup hp []).1 v0
          (by rw [hpe, hk'])
        rw [hpk] at this
        rw [this] at hlook
        obtain rfl : v0 = v := by
          simpa using hlook
        exact ⟨p.2, by rw [← hpk, Prod.mk.eta]; exact hp, by rw [hpe, hk', hpk]⟩
    · rw [extract_fold_not_mem ctx config.contextExtractors [] k hkeys hmem] at hlook
      exact Option.noConfusion hlook
  · rintro ⟨e, hmem, he⟩
    exact (extract_fold_mem ctx config.contextExtractors (k, e) hkeys hnodup hmem []).1 v he

/-- C7 witness: with extractors for "request_id" and "user" registered, a
context carrying only "request_id" yields a key set containing "request_id"
with its value. -/
theorem c7_contextKeys_omits_nil_witness :
    (Config.contextKeys
        { NewConfig with contextExtractors :=
            [("request_id", fun ctx => ("request_id", ctx.lookup "request_id")),
             ("user", fun ctx => ("user", ctx.lookup "user"))] }
        [("request_id", "abc")]).lookup "request_id" = some "abc" := by
  refine (c7_contextKeys_omits_nil
      { NewConfig with contextExtractors :=
          [("request_id", fun ctx => ("request_id", ctx.lookup "request_id")),
           ("user", fun ctx => ("user", ctx.lookup "user"))] }
      [("request_id", "abc")] "request_id" "abc" ?_ ?_).mpr ?_
  · intro p hp
    rcases List.mem_cons.mp hp with h | h
    · rw [h]
    · rcases List.mem_cons.mp h with h' | h'
      · rw [h']
      · exact absurd h' (List.not_mem_nil p)
  · simp
  · exact ⟨fun ctx => ("request_id", ctx.lookup "request_id"),
      List.mem_cons_self _ _, rfl⟩

/-- C2 counterexample: running `Init` with default options from the pristine
session publishes the brand-new, not-yet-initialized Backend into the global
state (trace element 1: `usingBackend = some zeroBackend` with `core = none`)
before `backend.Init` runs, even though this run completes successfully — so
there IS a point between the start of `Init` and its successful completion at
which the global state holds a not-yet-initialized Backend. -/
theorem c2_backend_published_before_init :
    InitTrace (fun _ => true) [] initialGlobalState newWritersRegistry =
      (none,
       { usingBackend := some { core := some 0, config := NewConfig },
         initDone := true, useConfig := NewConfig },
       { writers := [("stdout", 0)], nextId := 1 },
       [initialGlobalState,
        { usingBackend := some zeroBackend, initDone := false, useConfig := NewConfig },
        { usingBackend := some { core := some 0, config := NewConfig },
          initDone := false, useConfig := NewConfig },
        { usingBackend := some { core := some 0, config := NewConfig },
          initDone := true, useConfig := NewConfig }]) ∧
    zeroBackend.core = none := ⟨rfl, rfl⟩

/-- A successful `Backend.Init` stores a core. -/
theorem backend_init_ok_core (env : SinkEnv) (reg : WritersRegistry) (b : Backend)
    (config : Config) (b' : Backend) (reg' : WritersRegistry)
    (h : Backend.init env reg b config = (none, b', reg')) : ∃ w, b'.core = some w := by
  unfold Backend.init at h
  cases hb : b.core with
  | some c =>
    rw [hb] at h
    simp at h
  | none =>
    rw [hb] at h
    simp only [] at h
    split_ifs at h with hf
    · cases hro : WritersRegistry.registeredOutput env reg config.output with
      | error e =>
        rw [hro] at h
        simp at h
      | ok p =>
        rw [hro] at h
        simp only [Prod.mk.injEq] at h
        obtain ⟨-, hb', -⟩ := h
        exact ⟨p.1, by rw [← hb']⟩
    · simp at h

/-- C2 amended: during `Init`, the ready flag and the config are published only
after `backend.Init` has returned successfully — every global state that `Init`
makes visible with `initDone = true` holds a fully-constructed Backend (core
set). The Backend pointer itself, however, is published before initialization
(with `initDone = false`), as the counterexample shows. -/
theorem c2_ready_implies_constructed (env : SinkEnv) (opts : List ConfigOption)
    (g : GlobalState) (reg : WritersRegistry) (err : Option String)
    (g' : GlobalState) (reg' : WritersRegistry) (tr : List GlobalState)
    (h : InitTrace env opts g reg = (err, g', reg', tr)) :
    ∀ st ∈ tr.drop 1, st.initDone = true →
      ∃ b w, st.usingBackend = some b ∧ b.core = some w := by
  unfold InitTrace at h
  simp only [] at h
  cases hv : (Config.applyOptions NewConfig opts).validate with
  | some e =>
    rw [hv] at h
    simp only [Prod.mk.injEq] at h
    obtain ⟨-, -, -, htr⟩ := h
    subst htr
    intro st hst
    simp at hst
  | none =>
    rw [hv] at h
    rcases hbi : Backend.init env reg zeroBackend (Config.applyOptions NewConfig opts)
      with ⟨errb, bE, regE⟩
    rw [hbi] at h
    cases errb with
    | some e =>
      simp only [Prod.mk.injEq] at h
      obtain ⟨-, -, -, htr⟩ := h
      subst htr
      intro st hst hdone
      simp only [List.drop_succ_cons, List.drop_zero, List.mem_cons,
        List.not_mem_nil, or_false] at hst
      rcases hst with rfl | rfl
      · exact absurd hdone (by simp [setBackend])
      · exact absurd hdone (by simp [setBackend])
    | none =>
      simp only [Prod.mk.injEq] at h
      obtain ⟨-, -, -, htr⟩ := h
      subst htr
      intro st hst hdone
      simp only [List.drop_succ_cons, List.drop_zero, List.mem_cons,
        List.not_mem_nil, or_false] at hst
      obtain ⟨w, hw⟩ := backend_init_ok_core env reg zeroBackend
        (Config.applyOptions NewConfig opts) bE regE hbi
      rcases hst with rfl | rfl | rfl
      · exact absurd hdone (by simp [setBackend])
      · exact absurd hdone (by simp [setBackend])
      · exact ⟨bE, w, rfl, hw⟩

/-- C2 amended witness: in the concrete default-options run, the final trace
state has `initDone = true` and indeed holds a constructed Backend. -/
theorem c2_ready_implies_constructed_witness :
    ∃ b w,
      GlobalState.usingBackend
          { usingBackend := some { core := some 0, config := NewConfig },
            initDone := true, useConfig := NewConfig } = some b ∧
      b.core = some w := by
  have h := c2_ready_implies_constructed (fun _ => true) [] initialGlobalState
    newWritersRegistry none
    { usingBackend := some { core := some 0, config := NewConfig },
      initDone := true, useConfig := NewConfig }
    { writers := [("stdout", 0)], nextId := 1 }
    [initialGlobalState,
     { usingBackend := some zeroBackend, initDone := false, useConfig := NewConfig },
     { usingBackend := some { core := some 0, config := NewConfig },
       initDone := false, useConfig := NewConfig },
     { usingBackend := some { core := some 0, config := NewConfig },
       initDone := true, useConfig := NewConfig }] rfl
  exact h
    { usingBackend := some { core := some 0, config := NewConfig },
      initDone := true, useConfig := NewConfig }
    (List.Mem.tail _ (List.Mem.tail _ (List.Mem.head _))) rfl

end Logging
